import Mathlib

/-!
# Verification of the CPU_Analysis statistical pipeline

A shallow embedding of `src/app/CPU_Analysis/data_analysis.py` (pandas/scipy
based server-telemetry analysis) together with proofs about its behaviour.

Modelling conventions:

* A pandas `DataFrame` becomes `Table`: a row count, an optional parsed
  `Time` column, an optional parsed `dteday` column, and named numeric
  columns whose cells are `Option ℚ` (`none` models a null/NaN cell).
* Python/numpy floats become exact rationals `ℚ`; a NaN produced by an
  aggregate (mean of an empty series, sample std of a single value, quantile
  of an empty series) becomes `none`, and NaN propagation through `+`/`*`
  becomes `Option.bind`/`Option.map`.  An IEEE comparison with NaN is false,
  which is modelled by comparisons on `Option ℚ` where a `none` operand
  yields `false`.
* The square root inside the standard deviation and the scipy hypothesis
  tests (`shapiro`, `kstest`, `skew`, `kurtosis`) are external library
  routines, not code of this repository; they are passed to the embedded
  functions as explicit function parameters.  The only fact ever assumed
  about the square root is that it maps nonnegative inputs to nonnegative
  outputs.
* Raised Python exceptions become `Except PyErr`.
* Python's in-place mutation is modelled by explicit state passing: the
  `_st` variants return the caller-visible table next to their result.
-/

namespace CPUAnalysis

/-- Python runtime errors raised by the analysis functions:
`ValueError` (line 144), the pandas `KeyError` raised when a groupby column
selection names absent columns (line 156), and `ZeroDivisionError`
(lines 242-243). -/
inductive PyErr
  | valueError
  | keyError
  | zeroDivision
deriving DecidableEq, Repr

/-- A parsed pandas timestamp, reduced to the two components the pipeline
reads: the calendar date (as a day ordinal, `dt.date`) and the hour of day
(`dt.hour`). -/
structure Timestamp where
  date : Int
  hour : Nat
deriving DecidableEq, Repr

/-- The observation table (a pandas `DataFrame`): a row count, the parsed
`Time` column if present, the parsed `dteday` column if present, and the
numeric columns by name.  A cell `none` is a null/NaN entry. -/
structure Table where
  nrows : Nat
  time : Option (List Timestamp)
  dteday : Option (List Timestamp)
  cols : List (String × List (Option ℚ))
deriving DecidableEq, Repr

/-- The four known metric column names (line 42 / 86 / 152 / 178). -/
def metricNames : List String :=
  ["CPU_Usage", "Memory_Usage", "Network_Usage", "Temperature"]

/-- `c in df.columns`. -/
def Table.hasCol (df : Table) (c : String) : Bool :=
  if c = "Time" then df.time.isSome
  else if c = "dteday" then df.dteday.isSome
  else (df.cols.lookup c).isSome

/-- `df[c]` for a numeric column. -/
def Table.numCol (df : Table) (c : String) : List (Option ℚ) :=
  (df.cols.lookup c).getD []

/-- `series.dropna()`: the non-null values, in order. -/
def dropna (l : List (Option ℚ)) : List ℚ :=
  l.filterMap id

/-- Ascending sort, as performed internally by `Series.quantile`. -/
def sortAsc (l : List ℚ) : List ℚ :=
  l.insertionSort (· ≤ ·)

/-- Linear interpolation at fractional position `h` into the sorted sample
`s`, exactly numpy's default `linear` interpolation used by
`Series.quantile`: with `i = ⌊h⌋`, the value is
`s[i] + (h - i) * (s[min (i+1) (n-1)] - s[i])`. -/
def interpAt (s : List ℚ) (h : ℚ) : ℚ :=
  s.getD (⌊h⌋).toNat 0 +
    (h - ((⌊h⌋).toNat : ℚ)) *
      (s.getD (min ((⌊h⌋).toNat + 1) (s.length - 1)) 0 - s.getD (⌊h⌋).toNat 0)

/-- `series.quantile(q)` (linear interpolation); NaN on an empty series. -/
def pquantile (l : List ℚ) (q : ℚ) : Option ℚ :=
  if l.length = 0 then none
  else some (interpAt (sortAsc l) (q * ((l.length : ℚ) - 1)))

/-- `series.mean()`; NaN on an empty series. -/
def pmean (l : List ℚ) : Option ℚ :=
  if l.length = 0 then none else some (l.sum / (l.length : ℚ))

/-- The sample variance with `ddof = 1`, as used by `series.std()`;
NaN when fewer than two values are present. -/
def psampleVar (l : List ℚ) : Option ℚ :=
  if l.length ≤ 1 then none
  else some ((l.map fun x => (x - l.sum / (l.length : ℚ)) ^ 2).sum /
              ((l.length : ℚ) - 1))

/-- `series.std()` = square root of the `ddof = 1` sample variance, with the
library's square-root routine passed in as `rsqrt`. -/
def pstd (rsqrt : ℚ → ℚ) (l : List ℚ) : Option ℚ :=
  (psampleVar l).map rsqrt

/-- `series.min()` (NaN-skipping input expected already dropna'd). -/
def pminQ : List ℚ → Option ℚ
  | [] => none
  | x :: xs => some (xs.foldl min x)

/-- `series.max()` (NaN-skipping input expected already dropna'd). -/
def pmaxQ : List ℚ → Option ℚ
  | [] => none
  | x :: xs => some (xs.foldl max x)

/-- numpy's round-half-to-even on a rational. -/
def roundHalfEven (x : ℚ) : Int :=
  if x - (⌊x⌋ : ℚ) < 1/2 then ⌊x⌋
  else if (1/2 : ℚ) < x - (⌊x⌋ : ℚ) then ⌊x⌋ + 1
  else if ⌊x⌋ % 2 = 0 then ⌊x⌋ else ⌊x⌋ + 1

/-- `.round(2)` applied by the time-pattern aggregation. -/
def round2 (x : ℚ) : ℚ :=
  (roundHalfEven (x * 100) : ℚ) / 100

/-- The common output shape of the per-metric stages: one ordered entry per
metric name for which `f` produces a record (a Python dict built by a
`for metric in metrics: if ...:` loop). -/
def tagged {α : Type} (f : String → Option α) : List (String × α) :=
  metricNames.filterMap fun m => (f m).map fun v => (m, v)

/-- One record of `calculate_descriptive_statistics` (lines 47-56). -/
structure StatRec where
  mean : Option ℚ
  median : Option ℚ
  std : Option ℚ
  minV : Option ℚ
  maxV : Option ℚ
  q1 : Option ℚ
  q3 : Option ℚ
  count : Nat
deriving DecidableEq, Repr

/-- `calculate_descriptive_statistics` (lines 32-58): for each of the four
known metrics present in the table, the eight pandas aggregates over the
non-null values; absent metrics contribute no entry. -/
def calculate_descriptive_statistics (rsqrt : ℚ → ℚ) (df : Table) :
    List (String × StatRec) :=
  tagged fun m =>
    if df.hasCol m then
      some { mean := pmean (dropna (df.numCol m))
             median := pquantile (dropna (df.numCol m)) 0.5
             std := pstd rsqrt (dropna (df.numCol m))
             minV := pminQ (dropna (df.numCol m))
             maxV := pmaxQ (dropna (df.numCol m))
             q1 := pquantile (dropna (df.numCol m)) 0.25
             q3 := pquantile (dropna (df.numCol m)) 0.75
             count := (dropna (df.numCol m)).length }
    else none

/-- One record of `analyze_data_distribution` (lines 107-115).  `shapiro` is
`none` when the test was not computed (sample larger than 5000, stored as
NaN/NaN by the source). -/
structure DistRec where
  shapiro : Option (ℚ × ℚ)
  ks : ℚ × ℚ
  skewness : ℚ
  kurtosis : ℚ
  is_normal : Bool
deriving DecidableEq, Repr

/-- `analyze_data_distribution` (lines 76-117): for each present metric,
drop nulls; run Shapiro-Wilk only when the sample size is at most 5000
(line 94), otherwise record NaN; always run the KS test; the normality
verdict is `shapiro_p > 0.05` when Shapiro was computed and `ks_p > 0.05`
otherwise (line 114).  The scipy tests are the oracles `shapiroT`, `ksT`,
`skewT`, `kurtT` (each a function of the non-null sample; the source feeds
`kstest` the sample together with its own mean and std, both of which are
functions of the sample). -/
def analyze_data_distribution (shapiroT ksT : List ℚ → ℚ × ℚ)
    (skewT kurtT : List ℚ → ℚ) (df : Table) : List (String × DistRec) :=
  tagged fun m =>
    if df.hasCol m then
      some { shapiro := if (dropna (df.numCol m)).length ≤ 5000
                        then some (shapiroT (dropna (df.numCol m)))
                        else none
             ks := ksT (dropna (df.numCol m))
             skewness := skewT (dropna (df.numCol m))
             kurtosis := kurtT (dropna (df.numCol m))
             is_normal :=
               match (if (dropna (df.numCol m)).length ≤ 5000
                      then some (shapiroT (dropna (df.numCol m)))
                      else none : Option (ℚ × ℚ)) with
               | some sp => decide ((0.05 : ℚ) < sp.2)
               | none => decide ((0.05 : ℚ) < (ksT (dropna (df.numCol m))).2) }
    else none

/-- One record of `calculate_alertness_thresholds` (lines 187-210). -/
structure Thresh where
  warning : Option ℚ
  critical : Option ℚ
  method : String
deriving DecidableEq, Repr

/-- `calculate_alertness_thresholds` (lines 167-212): per present metric,
after dropping nulls, warning/critical cutoffs by the selected method;
`percentile` uses the 90th/95th percentiles, `std` uses mean + 2·std and
mean + 3·std (recorded as method `standard_deviation`), `iqr` uses
Q3 + 1.5·IQR and Q3 + 3·IQR; any other method selector produces no entry for
any metric (the `if/elif` chain has no `else`). -/
def calculate_alertness_thresholds (rsqrt : ℚ → ℚ) (df : Table)
    (method : String) : List (String × Thresh) :=
  tagged fun m =>
    if df.hasCol m then
      if method = "percentile" then
        some { warning := pquantile (dropna (df.numCol m)) 0.90
               critical := pquantile (dropna (df.numCol m)) 0.95
               method := "percentile" }
      else if method = "std" then
        some { warning := (pmean (dropna (df.numCol m))).bind fun mv =>
                 (pstd rsqrt (dropna (df.numCol m))).map fun sv => mv + 2 * sv
               critical := (pmean (dropna (df.numCol m))).bind fun mv =>
                 (pstd rsqrt (dropna (df.numCol m))).map fun sv => mv + 3 * sv
               method := "standard_deviation" }
      else if method = "iqr" then
        some { warning := (pquantile (dropna (df.numCol m)) 0.25).bind fun q1 =>
                 (pquantile (dropna (df.numCol m)) 0.75).map fun q3 =>
                   q3 + 1.5 * (q3 - q1)
               critical := (pquantile (dropna (df.numCol m)) 0.25).bind fun q1 =>
                 (pquantile (dropna (df.numCol m)) 0.75).map fun q3 =>
                   q3 + 3 * (q3 - q1)
               method := "iqr" }
      else none
    else none

/-- One record of `detect_anomalies` (lines 237-244).  The selected row
subsets are recorded by their positional indices in the column. -/
structure Anomaly where
  warning_count : Nat
  critical_count : Nat
  warning_data : List Nat
  critical_data : List Nat
  warning_percentage : ℚ
  critical_percentage : ℚ
deriving DecidableEq, Repr

/-- `df[df[metric] > t]` (lines 234-235): the indices of the rows whose cell
is non-null and strictly exceeds the cutoff.  A NaN cutoff (`none`) selects
nothing, as every IEEE comparison with NaN is false. -/
def exceedIdx (col : List (Option ℚ)) (t : Option ℚ) : List Nat :=
  match t with
  | none => []
  | some tv =>
      col.enum.filterMap fun p =>
        match p.2 with
        | some v => if tv < v then some p.1 else none
        | none => none

/-- The per-metric record built at lines 237-244, including the
percentages `100 * count / len(df)`. -/
def mkAnomaly (df : Table) (m : String) (t : Thresh) : Anomaly :=
  { warning_count := (exceedIdx (df.numCol m) t.warning).length
    critical_count := (exceedIdx (df.numCol m) t.critical).length
    warning_data := exceedIdx (df.numCol m) t.warning
    critical_data := exceedIdx (df.numCol m) t.critical
    warning_percentage :=
      (((exceedIdx (df.numCol m) t.warning).length : ℚ) / (df.nrows : ℚ)) * 100
    critical_percentage :=
      (((exceedIdx (df.numCol m) t.critical).length : ℚ) / (df.nrows : ℚ)) * 100 }

/-- The loop of `detect_anomalies` (lines 228-244): iterate over the
threshold entries in order; a metric absent from the table is skipped; for a
present metric, building the record divides by `len(df)`, which raises
`ZeroDivisionError` when the table has no rows (the division at lines
242-243 is unguarded). -/
def detectGo (df : Table) : List (String × Thresh) →
    Except PyErr (List (String × Anomaly))
  | [] => .ok []
  | (m, t) :: rest =>
      if df.hasCol m then
        if df.nrows = 0 then .error .zeroDivision
        else
          match detectGo df rest with
          | .error e => .error e
          | .ok tail => .ok ((m, mkAnomaly df m t) :: tail)
      else detectGo df rest

/-- `detect_anomalies` (lines 215-246). -/
def detect_anomalies (df : Table) (thr : List (String × Thresh)) :
    Except PyErr (List (String × Anomaly)) :=
  detectGo df thr

/-- One aggregation cell of the time-pattern output: the `mean`, `max`,
`std` aggregates of a group, each rounded to two decimals (line 156/161). -/
structure Agg where
  mean : Option ℚ
  max : Option ℚ
  std : Option ℚ
deriving DecidableEq, Repr

/-- The three aggregates of one group's non-null values. -/
def aggOf (rsqrt : ℚ → ℚ) (l : List ℚ) : Agg :=
  { mean := (pmean l).map round2
    max := (pmaxQ l).map round2
    std := (pstd rsqrt l).map round2 }

/-- The non-null values of `col` in the rows whose group key equals `k`. -/
def groupVals {K : Type} [DecidableEq K] (keys : List K)
    (col : List (Option ℚ)) (k : K) : List ℚ :=
  dropna ((keys.zip col).filterMap fun p => if p.1 = k then some p.2 else none)

/-- The distinct group keys in ascending order, as produced by a pandas
`groupby`. -/
def sortedKeys {K : Type} [LinearOrder K] [DecidableEq K] (l : List K) :
    List K :=
  l.dedup.insertionSort (· ≤ ·)

/-- `df.groupby(key)[metrics].agg(['mean','max','std']).round(2)`
(lines 156 and 161), for a table in which all four metric columns are
present (pandas raises a `KeyError` otherwise, handled by the caller). -/
def groupAgg {K : Type} [LinearOrder K] [DecidableEq K] (rsqrt : ℚ → ℚ)
    (keys : List K) (df : Table) : List (K × List (String × Agg)) :=
  (sortedKeys keys).map fun k =>
    (k, metricNames.map fun m => (m, aggOf rsqrt (groupVals keys (df.numCol m) k)))

/-- The output of `analyze_time_patterns`: the hourly grouping is always
present, the daily grouping only when the table spans more than one
distinct calendar date (lines 155-162). -/
structure TimePatterns where
  hourly : List (Nat × List (String × Agg))
  daily : Option (List (Int × List (String × Agg)))
deriving DecidableEq, Repr

/-- Lines 148-150: the derived `Hour`, `DayOfWeek`, `Date` columns appended
to (a copy of) the table. -/
def addDerivedCols (df : Table) (ts : List Timestamp) : Table :=
  { df with cols := df.cols ++
      [("Hour", ts.map fun t => some (t.hour : ℚ)),
       ("DayOfWeek", ts.map fun t => some ((t.date % 7 : ℤ) : ℚ)),
       ("Date", ts.map fun t => some ((t.date : ℤ) : ℚ))] }

/-- `analyze_time_patterns` (lines 133-164): raises `ValueError` when the
table has no `Time` column (line 143-144); otherwise works on a copy
extended with the derived time columns (lines 147-150); the groupby column
selection at line 156 raises a pandas `KeyError` when any of the four metric
columns is absent; otherwise the hourly aggregation is always produced and
the daily aggregation exactly when the timestamps span more than one
distinct date (`df['Date'].nunique() > 1`, line 160). -/
def analyze_time_patterns (rsqrt : ℚ → ℚ) (df : Table) :
    Except PyErr TimePatterns :=
  match df.time with
  | none => .error .valueError
  | some ts =>
      if metricNames.all (fun m => (addDerivedCols df ts).hasCol m) then
        .ok { hourly := groupAgg rsqrt (ts.map Timestamp.hour) (addDerivedCols df ts)
              daily := if 1 < (ts.map Timestamp.date).dedup.length
                       then some (groupAgg rsqrt (ts.map Timestamp.date)
                                    (addDerivedCols df ts))
                       else none }
      else .error .keyError

/-- `df.copy()`: an independent table with the same contents. -/
def Table.copy (df : Table) : Table := df

/-- State-passing form of `calculate_descriptive_statistics`: the function
only reads `df`, so the caller-visible table is returned unchanged. -/
def calculate_descriptive_statistics_st (rsqrt : ℚ → ℚ) (df : Table) :
    List (String × StatRec) × Table :=
  (calculate_descriptive_statistics rsqrt df, df)

/-- State-passing form of `analyze_data_distribution` (read-only). -/
def analyze_data_distribution_st (shapiroT ksT : List ℚ → ℚ × ℚ)
    (skewT kurtT : List ℚ → ℚ) (df : Table) :
    List (String × DistRec) × Table :=
  (analyze_data_distribution shapiroT ksT skewT kurtT df, df)

/-- State-passing form of `calculate_alertness_thresholds` (read-only). -/
def calculate_alertness_thresholds_st (rsqrt : ℚ → ℚ) (df : Table)
    (method : String) : List (String × Thresh) × Table :=
  (calculate_alertness_thresholds rsqrt df method, df)

/-- State-passing form of `detect_anomalies`: the selected row subsets are
taken from `.copy()` slices (lines 234-235), so the source table is
unchanged. -/
def detect_anomalies_st (df : Table) (thr : List (String × Thresh)) :
    Except PyErr (List (String × Anomaly)) × Table :=
  (detect_anomalies df thr, df)

/-- State-passing form of `analyze_time_patterns`: line 147 rebinds the
local name to `df.copy()`, so the `Hour`/`DayOfWeek`/`Date` assignments at
lines 148-150 land on the copy and the caller-visible table is the
unchanged original. -/
def analyze_time_patterns_st (rsqrt : ℚ → ℚ) (df : Table) :
    Except PyErr TimePatterns × Table :=
  match df.time with
  | none => (.error .valueError, df)
  | some ts =>
      if metricNames.all (fun m => (addDerivedCols df.copy ts).hasCol m) then
        (.ok { hourly := groupAgg rsqrt (ts.map Timestamp.hour)
                           (addDerivedCols df.copy ts)
               daily := if 1 < (ts.map Timestamp.date).dedup.length
                        then some (groupAgg rsqrt (ts.map Timestamp.date)
                                     (addDerivedCols df.copy ts))
                        else none },
         df)
      else (.error .keyError, df)


/-! ## Helper lemmas about `tagged` outputs -/

theorem lookup_filterMap_of_not_mem {α : Type} (L : List String)
    (f : String → Option α) (m : String) (hm : m ∉ L) :
    (L.filterMap fun x => (f x).map fun v => (x, v)).lookup m = none := by
  induction L with
  | nil => rfl
  | cons a L ih =>
      have hma : m ≠ a := fun h => hm (h ▸ List.mem_cons_self a L)
      have hmL : m ∉ L := fun h => hm (List.mem_cons_of_mem a h)
      cases hfa : f a with
      | none => simpa [List.filterMap_cons, hfa] using ih hmL
      | some v =>
          have hbeq : (m == a) = false := beq_eq_false_iff_ne.mpr hma
          simpa [List.filterMap_cons, hfa, List.lookup, hbeq] using ih hmL

theorem lookup_filterMap_nodup {α : Type} (L : List String)
    (f : String → Option α) (m : String) (hnd : L.Nodup) (hm : m ∈ L) :
    (L.filterMap fun x => (f x).map fun v => (x, v)).lookup m = f m := by
  induction L with
  | nil => cases hm
  | cons a L ih =>
      rcases List.mem_cons.mp hm with rfl | hmL
      · have hmnot : m ∉ L := (List.nodup_cons.mp hnd).1
        cases hfa : f m with
        | none =>
            simpa [List.filterMap_cons, hfa] using
              lookup_filterMap_of_not_mem L f m hmnot
        | some v => simp [List.filterMap_cons, hfa, List.lookup]
      · have hma : m ≠ a := fun h =>
          (List.nodup_cons.mp hnd).1 (h ▸ hmL)
        have hbeq : (m == a) = false := beq_eq_false_iff_ne.mpr hma
        cases hfa : f a with
        | none => simpa [List.filterMap_cons, hfa] using ih (List.nodup_cons.mp hnd).2 hmL
        | some v =>
            simpa [List.filterMap_cons, hfa, List.lookup, hbeq] using
              ih (List.nodup_cons.mp hnd).2 hmL

theorem metricNames_nodup : metricNames.Nodup := by decide

theorem lookup_tagged {α : Type} (f : String → Option α) {m : String}
    (hm : m ∈ metricNames) : (tagged f).lookup m = f m :=
  lookup_filterMap_nodup metricNames f m metricNames_nodup hm

theorem mem_tagged {α : Type} (f : String → Option α) {m : String} {v : α} :
    (m, v) ∈ tagged f ↔ m ∈ metricNames ∧ f m = some v := by
  unfold tagged
  rw [List.mem_filterMap]
  constructor
  · rintro ⟨a, haL, hav⟩
    rcases Option.map_eq_some'.mp hav with ⟨w, hw, heq⟩
    obtain ⟨rfl, rfl⟩ : a = m ∧ w = v := by
      constructor <;> [exact congrArg Prod.fst heq; exact congrArg Prod.snd heq]
    exact ⟨haL, hw⟩
  · rintro ⟨hmL, hfm⟩
    exact ⟨m, hmL, by simp [hfm]⟩

/-! ## Sorted-list and interpolation lemmas -/

theorem getD_mono_of_sorted {s : List ℚ} (hs : s.Sorted (· ≤ ·)) {i j : ℕ}
    (hij : i ≤ j) (hj : j < s.length) : s.getD i 0 ≤ s.getD j 0 := by
  have hi : i < s.length := lt_of_le_of_lt hij hj
  rw [List.getD_eq_getElem s 0 hi, List.getD_eq_getElem s 0 hj]
  rcases Nat.eq_or_lt_of_le hij with rfl | hlt
  · exact le_refl _
  · have := List.pairwise_iff_get.mp hs ⟨i, hi⟩ ⟨j, hj⟩ hlt
    simpa [List.get_eq_getElem] using this

theorem sortAsc_sorted (l : List ℚ) : (sortAsc l).Sorted (· ≤ ·) :=
  List.sorted_insertionSort _ l

theorem sortAsc_length (l : List ℚ) : (sortAsc l).length = l.length :=
  (List.perm_insertionSort _ l).length_eq

theorem floor_toNat_le_of_le {h : ℚ} {n : ℕ} (hn : 1 ≤ n)
    (hub : h ≤ (n : ℚ) - 1) : (⌊h⌋).toNat ≤ n - 1 := by
  have h1 : ⌊h⌋ ≤ ⌊(n : ℚ) - 1⌋ := Int.floor_le_floor hub
  have h2 : ((n : ℚ) - 1) = (((n : ℤ) - 1 : ℤ) : ℚ) := by push_cast; ring
  rw [h2, Int.floor_intCast] at h1
  omega

theorem interpAt_bounds {s : List ℚ} (hs : s.Sorted (· ≤ ·)) (hne : s ≠ [])
    {h : ℚ} (h0 : 0 ≤ h) (hub : h ≤ (s.length : ℚ) - 1) :
    s.getD (⌊h⌋).toNat 0 ≤ interpAt s h ∧
      interpAt s h ≤ s.getD (min ((⌊h⌋).toNat + 1) (s.length - 1)) 0 := by
  have hn : 1 ≤ s.length := List.length_pos.mpr hne
  have hfl0 : (0 : ℤ) ≤ ⌊h⌋ := Int.floor_nonneg.mpr h0
  have hiq : (((⌊h⌋).toNat : ℕ) : ℚ) ≤ h := by
    have : ((((⌊h⌋).toNat : ℤ)) : ℚ) ≤ h := by
      rw [Int.toNat_of_nonneg hfl0]; exact Int.floor_le h
    exact_mod_cast this
  have hiq2 : h < (((⌊h⌋).toNat : ℕ) : ℚ) + 1 := by
    have : h < ((((⌊h⌋).toNat : ℤ)) : ℚ) + 1 := by
      rw [Int.toNat_of_nonneg hfl0]; exact Int.lt_floor_add_one h
    exact_mod_cast this
  have hile : (⌊h⌋).toNat ≤ s.length - 1 := floor_toNat_le_of_le hn hub
  have hmin_lt : min ((⌊h⌋).toNat + 1) (s.length - 1) < s.length := by omega
  have hi_le_min : (⌊h⌋).toNat ≤ min ((⌊h⌋).toNat + 1) (s.length - 1) := by omega
  have hgap : s.getD (⌊h⌋).toNat 0 ≤
      s.getD (min ((⌊h⌋).toNat + 1) (s.length - 1)) 0 :=
    getD_mono_of_sorted hs hi_le_min hmin_lt
  constructor
  · simp only [interpAt]
    nlinarith [mul_nonneg (by linarith : (0:ℚ) ≤ h - (((⌊h⌋).toNat : ℕ) : ℚ))
      (sub_nonneg.mpr hgap)]
  · simp only [interpAt]
    have hstep := mul_le_mul_of_nonneg_right
      (by linarith : h - (((⌊h⌋).toNat : ℕ) : ℚ) ≤ 1) (sub_nonneg.mpr hgap)
    linarith

theorem interpAt_mono {s : List ℚ} (hs : s.Sorted (· ≤ ·)) (hne : s ≠ [])
    {a b : ℚ} (ha : 0 ≤ a) (hab : a ≤ b) (hb : b ≤ (s.length : ℚ) - 1) :
    interpAt s a ≤ interpAt s b := by
  have hn : 1 ≤ s.length := List.length_pos.mpr hne
  obtain ⟨hA1, hA2⟩ := interpAt_bounds hs hne ha (le_trans hab hb)
  obtain ⟨hB1, hB2⟩ := interpAt_bounds hs hne (le_trans ha hab) hb
  have hiab : (⌊a⌋).toNat ≤ (⌊b⌋).toNat :=
    Int.toNat_le_toNat (Int.floor_le_floor hab)
  have hible : (⌊b⌋).toNat ≤ s.length - 1 := floor_toNat_le_of_le hn hb
  rcases Nat.eq_or_lt_of_le hiab with heq | hlt
  · have hgap : s.getD (⌊b⌋).toNat 0 ≤
        s.getD (min ((⌊b⌋).toNat + 1) (s.length - 1)) 0 :=
      getD_mono_of_sorted hs (by omega) (by omega)
    have hfa : (((⌊a⌋).toNat : ℕ) : ℚ) = (((⌊b⌋).toNat : ℕ) : ℚ) := by
      exact_mod_cast congrArg (fun n : ℕ => (n : ℚ)) heq
    simp only [interpAt, heq, hfa]
    nlinarith [mul_le_mul_of_nonneg_right
      (by linarith : a - (((⌊b⌋).toNat : ℕ) : ℚ) ≤ b - (((⌊b⌋).toNat : ℕ) : ℚ))
      (sub_nonneg.mpr hgap)]
  · calc interpAt s a
        ≤ s.getD (min ((⌊a⌋).toNat + 1) (s.length - 1)) 0 := hA2
      _ ≤ s.getD (⌊b⌋).toNat 0 := getD_mono_of_sorted hs (by omega) (by omega)
      _ ≤ interpAt s b := hB1

/-! ## Quantile and variance facts -/

theorem pquantile_pair_mono {l : List ℚ} (hne : l.length ≠ 0) {a b : ℚ}
    (ha : 0 ≤ a) (hab : a ≤ b) (hb : b ≤ 1) :
    ∃ x y, pquantile l a = some x ∧ pquantile l b = some y ∧ x ≤ y := by
  have hn : 1 ≤ l.length := Nat.one_le_iff_ne_zero.mpr hne
  have hq : (0 : ℚ) ≤ (l.length : ℚ) - 1 := by
    have : (1 : ℚ) ≤ (l.length : ℚ) := by exact_mod_cast hn
    linarith
  have hsne : sortAsc l ≠ [] := by
    intro hnil
    have := sortAsc_length l
    rw [hnil] at this
    exact hne this.symm
  refine ⟨interpAt (sortAsc l) (a * ((l.length : ℚ) - 1)),
          interpAt (sortAsc l) (b * ((l.length : ℚ) - 1)),
          by simp [pquantile, hne], by simp [pquantile, hne], ?_⟩
  apply interpAt_mono (sortAsc_sorted l) hsne
  · exact mul_nonneg ha hq
  · exact mul_le_mul_of_nonneg_right hab hq
  · rw [sortAsc_length]
    calc b * ((l.length : ℚ) - 1) ≤ 1 * ((l.length : ℚ) - 1) :=
          mul_le_mul_of_nonneg_right hb hq
      _ = (l.length : ℚ) - 1 := one_mul _

theorem pquantile_isSome {l : List ℚ} (hne : l.length ≠ 0) (q : ℚ) :
    ∃ x, pquantile l q = some x :=
  ⟨interpAt (sortAsc l) (q * ((l.length : ℚ) - 1)), by simp [pquantile, hne]⟩

theorem psampleVar_nonneg {l : List ℚ} {v : ℚ} (hv : psampleVar l = some v) :
    0 ≤ v := by
  unfold psampleVar at hv
  split at hv
  · exact absurd hv (by simp)
  · rename_i hlen
    have h2 : 2 ≤ l.length := by omega
    have hden : (0 : ℚ) < (l.length : ℚ) - 1 := by
      have : (2 : ℚ) ≤ (l.length : ℚ) := by exact_mod_cast h2
      linarith
    have hnum : (0 : ℚ) ≤ (l.map fun x => (x - l.sum / (l.length : ℚ)) ^ 2).sum := by
      apply List.sum_nonneg
      intro x hx
      rcases List.mem_map.mp hx with ⟨y, _, rfl⟩
      positivity
    have hveq : (l.map fun x => (x - l.sum / (l.length : ℚ)) ^ 2).sum /
        ((l.length : ℚ) - 1) = v := Option.some.inj hv
    rw [← hveq]
    exact div_nonneg hnum (le_of_lt hden)

theorem pstd_nonneg {rsqrt : ℚ → ℚ} (hr : ∀ x, 0 ≤ x → 0 ≤ rsqrt x)
    {l : List ℚ} {s : ℚ} (hs : pstd rsqrt l = some s) : 0 ≤ s := by
  rcases Option.map_eq_some'.mp hs with ⟨v, hv, rfl⟩
  exact hr v (psampleVar_nonneg hv)

/-! ## Threshold ordering -/

/-- Every threshold record produced by `calculate_alertness_thresholds` whose
critical cutoff is a number (not NaN) also has a numeric warning cutoff, and
the warning cutoff never exceeds the critical one.  The only assumption on
the library square root is that it is nonnegative on nonnegative inputs. -/
theorem thresh_warning_le_critical {rsqrt : ℚ → ℚ}
    (hr : ∀ x, 0 ≤ x → 0 ≤ rsqrt x) {df : Table} {method m : String}
    {t : Thresh} (hmem : (m, t) ∈ calculate_alertness_thresholds rsqrt df method)
    {c : ℚ} (hc : t.critical = some c) :
    ∃ w, t.warning = some w ∧ w ≤ c := by
  unfold calculate_alertness_thresholds at hmem
  obtain ⟨hmL, hf⟩ := (mem_tagged _).mp hmem
  split_ifs at hf with hcol hp hstd hiqr
  · -- percentile
    obtain rfl : _ = t := Option.some.inj hf
    simp only at hc
    have hne : (dropna (df.numCol m)).length ≠ 0 := by
      intro h0
      rw [pquantile] at hc
      simp [h0] at hc
    obtain ⟨x, y, hx, hy, hxy⟩ :=
      pquantile_pair_mono hne (by norm_num : (0:ℚ) ≤ 0.90)
        (by norm_num : (0.90:ℚ) ≤ 0.95) (by norm_num : (0.95:ℚ) ≤ 1)
    refine ⟨x, hx, ?_⟩
    rw [hy] at hc
    exact (Option.some.inj hc) ▸ hxy
  · -- std
    obtain rfl : _ = t := Option.some.inj hf
    simp only at hc ⊢
    rcases Option.bind_eq_some.mp hc with ⟨mv, hmv, hrest⟩
    rcases Option.map_eq_some'.mp hrest with ⟨sv, hsv, hcval⟩
    refine ⟨mv + 2 * sv, ?_, ?_⟩
    · rw [hmv, hsv]; rfl
    · have hsv0 : 0 ≤ sv := pstd_nonneg hr hsv
      rw [← hcval]; linarith
  · -- iqr
    obtain rfl : _ = t := Option.some.inj hf
    simp only at hc ⊢
    rcases Option.bind_eq_some.mp hc with ⟨q1v, hq1, hrest⟩
    rcases Option.map_eq_some'.mp hrest with ⟨q3v, hq3, hcval⟩
    refine ⟨q3v + 1.5 * (q3v - q1v), ?_, ?_⟩
    · rw [hq1, hq3]; rfl
    · have hne : (dropna (df.numCol m)).length ≠ 0 := by
        intro h0
        rw [pquantile] at hq1
        simp [h0] at hq1
      obtain ⟨x, y, hx, hy, hxy⟩ :=
        pquantile_pair_mono hne (by norm_num : (0:ℚ) ≤ 0.25)
          (by norm_num : (0.25:ℚ) ≤ 0.75) (by norm_num : (0.75:ℚ) ≤ 1)
      rw [hq1] at hx
      rw [hq3] at hy
      obtain rfl : q1v = x := Option.some.inj hx
      obtain rfl : q3v = y := Option.some.inj hy
      rw [← hcval]
      nlinarith

/-! ## Anomaly-detector structure lemmas -/

/-- If the detector loop succeeds, every output entry arises from a
threshold entry for the same (present) metric. -/
theorem detectGo_ok_mem {df : Table} {thr : List (String × Thresh)}
    {res : List (String × Anomaly)} (hok : detectGo df thr = .ok res)
    {m : String} {a : Anomaly} (hmem : (m, a) ∈ res) :
    ∃ t, (m, t) ∈ thr ∧ a = mkAnomaly df m t := by
  induction thr generalizing res with
  | nil =>
      obtain rfl : ([] : List (String × Anomaly)) = res := Except.ok.inj hok
      cases hmem
  | cons p rest ih =>
      obtain ⟨m0, t0⟩ := p
      rw [detectGo] at hok
      split at hok
      · split at hok
        · cases hok
        · split at hok
          · cases hok
          · rename_i tail htail
            obtain rfl : _ = res := Except.ok.inj hok
            rcases List.mem_cons.mp hmem with heq | hmemtl
            · obtain ⟨rfl, rfl⟩ : m0 = m ∧ mkAnomaly df m0 t0 = a := by
                exact ⟨congrArg Prod.fst heq.symm, congrArg Prod.snd heq.symm⟩
              exact ⟨t0, List.mem_cons_self _ _, rfl⟩
            · obtain ⟨t, htm, hta⟩ := ih htail hmemtl
              exact ⟨t, List.mem_cons_of_mem _ htm, hta⟩
      · obtain ⟨t, htm, hta⟩ := ih hok hmem
        exact ⟨t, List.mem_cons_of_mem _ htm, hta⟩

/-- If the detector loop succeeds, the output has an entry for a metric
exactly when the threshold map has one and the metric is a column of the
table. -/
theorem detectGo_lookup_isSome {df : Table} {thr : List (String × Thresh)}
    {res : List (String × Anomaly)} (hok : detectGo df thr = .ok res)
    (m : String) :
    (res.lookup m).isSome = ((thr.lookup m).isSome && df.hasCol m) := by
  induction thr generalizing res with
  | nil =>
      obtain rfl : ([] : List (String × Anomaly)) = res := Except.ok.inj hok
      simp [List.lookup]
  | cons p rest ih =>
      obtain ⟨m0, t0⟩ := p
      rw [detectGo] at hok
      split at hok
      · rename_i hcol
        split at hok
        · cases hok
        · split at hok
          · cases hok
          · rename_i tail htail
            obtain rfl : _ = res := Except.ok.inj hok
            by_cases hmm : m = m0
            · subst hmm
              simp [List.lookup, hcol]
            · have hbeq : (m == m0) = false := beq_eq_false_iff_ne.mpr hmm
              simp only [List.lookup, hbeq]
              exact ih htail
      · rename_i hcol
        have hcolf : df.hasCol m0 = false := by
          cases h : df.hasCol m0
          · rfl
          · exact absurd h hcol
        by_cases hmm : m = m0
        · subst hmm
          rw [ih hok]
          simp [List.lookup, hcolf]
        · have hbeq : (m == m0) = false := beq_eq_false_iff_ne.mpr hmm
          simp only [List.lookup, hbeq]
          exact ih hok

/-- Threshold entries whose metrics are all absent from the table are all
silently ignored: the detector returns an empty result and no error, even on
a zero-row table. -/
theorem detectGo_all_absent {df : Table} {thr : List (String × Thresh)}
    (habs : ∀ p ∈ thr, df.hasCol p.1 = false) :
    detectGo df thr = .ok [] := by
  induction thr with
  | nil => rfl
  | cons p rest ih =>
      obtain ⟨m0, t0⟩ := p
      rw [detectGo]
      have h0 : df.hasCol m0 = false := habs (m0, t0) (List.mem_cons_self _ _)
      rw [h0]
      simp only [Bool.false_eq_true, if_false]
      exact ih fun q hq => habs q (List.mem_cons_of_mem _ hq)

/-- Rows exceeding the larger cutoff also exceed the smaller one. -/
theorem exceedIdx_subset {col : List (Option ℚ)} {w c : ℚ} (hwc : w ≤ c) :
    exceedIdx col (some c) ⊆ exceedIdx col (some w) := by
  intro i hi
  unfold exceedIdx at hi ⊢
  rcases List.mem_filterMap.mp hi with ⟨p, hp, hpi⟩
  apply List.mem_filterMap.mpr
  refine ⟨p, hp, ?_⟩
  rcases p with ⟨j, cell⟩
  cases cell with
  | none => simp at hpi
  | some v =>
      simp only at hpi ⊢
      split at hpi
      · rename_i hvc
        obtain rfl : j = i := Option.some.inj hpi
        rw [if_pos (lt_of_le_of_lt hwc hvc)]
      · cases hpi

/-! ## Derived-column bookkeeping -/

theorem lookup_append_list {α : Type} (k : String)
    (l1 l2 : List (String × α)) :
    List.lookup k (l1 ++ l2) = (List.lookup k l1).or (List.lookup k l2) := by
  induction l1 with
  | nil => simp [List.lookup]
  | cons p rest ih =>
      obtain ⟨k0, v0⟩ := p
      cases hbeq : (k == k0)
      · simpa [List.lookup, hbeq] using ih
      · simp [List.lookup, hbeq]

/-- Appending the derived `Hour`/`DayOfWeek`/`Date` columns does not change
the presence of any of the four metric columns. -/
theorem addDerivedCols_hasCol (df : Table) (ts : List Timestamp)
    {m : String} (hm : m ∈ metricNames) :
    (addDerivedCols df ts).hasCol m = df.hasCol m := by
  fin_cases hm <;>
    simp [Table.hasCol, addDerivedCols, lookup_append_list, List.lookup]

/-- Reduction of `analyze_time_patterns` when the `Time` column is absent. -/
theorem analyze_time_patterns_eq_none (rsqrt : ℚ → ℚ) {df : Table}
    (h : df.time = none) :
    analyze_time_patterns rsqrt df = .error .valueError := by
  unfold analyze_time_patterns
  rw [h]

/-- Reduction of `analyze_time_patterns` when the `Time` column is
present. -/
theorem analyze_time_patterns_eq_some (rsqrt : ℚ → ℚ) {df : Table}
    {ts : List Timestamp} (h : df.time = some ts) :
    analyze_time_patterns rsqrt df =
      (if metricNames.all (fun m => (addDerivedCols df ts).hasCol m) then
        .ok { hourly := groupAgg rsqrt (ts.map Timestamp.hour) (addDerivedCols df ts)
              daily := if 1 < (ts.map Timestamp.date).dedup.length
                       then some (groupAgg rsqrt (ts.map Timestamp.date)
                                    (addDerivedCols df ts))
                       else none }
      else .error .keyError) := by
  unfold analyze_time_patterns
  rw [h]

/-! ## Claim C1 -/

/-- A zero-row table that still declares a `CPU_Usage` column. -/
def tblC1 : Table := ⟨0, none, none, [("CPU_Usage", [])]⟩

/-- Claim C1 (code bug): on a table with zero rows the spec requires the
threshold calculator and the anomaly detector not to raise and the
percentage computation to be guarded against division by the zero row
count.  The threshold calculator indeed returns (NaN-valued) entries
without raising, but `detect_anomalies` divides by `len(df)` unguarded at
lines 242-243, so the detector raises `ZeroDivisionError` on the zero-row
table `tblC1`. -/
theorem claim_C1_zero_rows_division_raises :
    detect_anomalies tblC1
      (calculate_alertness_thresholds (fun x => x) tblC1 "percentile") =
      .error .zeroDivision := rfl

/-! ## Claim C5 -/

/-- Claim C5 (confirmed): for every present metric, the distribution
analyzer records a Shapiro-Wilk result exactly when the non-null sample has
at most 5000 values (so a sample of exactly 5000 takes the Shapiro branch),
records it as not computed otherwise, and the normality verdict compares
the Shapiro p-value with 0.05 when Shapiro was computed and the KS p-value
with 0.05 otherwise. -/
theorem claim_C5_shapiro_branch (shapiroT ksT : List ℚ → ℚ × ℚ)
    (skewT kurtT : List ℚ → ℚ) (df : Table) (m : String)
    (hm : m ∈ metricNames) (hc : df.hasCol m = true) :
    ∃ r, (analyze_data_distribution shapiroT ksT skewT kurtT df).lookup m =
        some r ∧
      (r.shapiro.isSome ↔ (dropna (df.numCol m)).length ≤ 5000) ∧
      (r.is_normal = if (dropna (df.numCol m)).length ≤ 5000
                     then decide ((0.05 : ℚ) < (shapiroT (dropna (df.numCol m))).2)
                     else decide ((0.05 : ℚ) < (ksT (dropna (df.numCol m))).2)) := by
  unfold analyze_data_distribution
  rw [lookup_tagged _ hm, hc]
  simp only [if_true]
  refine ⟨_, rfl, ?_, ?_⟩
  · by_cases hlen : (dropna (df.numCol m)).length ≤ 5000 <;> simp [hlen]
  · by_cases hlen : (dropna (df.numCol m)).length ≤ 5000 <;> simp [hlen]

/-- A one-row table with a `CPU_Usage` column, for the C5 witness. -/
def tblC5 : Table := ⟨1, none, none, [("CPU_Usage", [some 3])]⟩

theorem claim_C5_witness :
    ∃ r, (analyze_data_distribution (fun _ => (1, 1)) (fun _ => (1, 1))
        (fun _ => 0) (fun _ => 0) tblC5).lookup "CPU_Usage" = some r ∧
      (r.shapiro.isSome ↔ (dropna (tblC5.numCol "CPU_Usage")).length ≤ 5000) ∧
      (r.is_normal = if (dropna (tblC5.numCol "CPU_Usage")).length ≤ 5000
                     then decide ((0.05 : ℚ) <
                       ((fun (_ : List ℚ) => ((1 : ℚ), (1 : ℚ)))
                         (dropna (tblC5.numCol "CPU_Usage"))).2)
                     else decide ((0.05 : ℚ) <
                       ((fun (_ : List ℚ) => ((1 : ℚ), (1 : ℚ)))
                         (dropna (tblC5.numCol "CPU_Usage"))).2)) :=
  claim_C5_shapiro_branch (fun _ => (1, 1)) (fun _ => (1, 1))
    (fun _ => 0) (fun _ => 0) tblC5 "CPU_Usage" (by decide) (by decide)

/-! ## Claim C6 -/

/-- Claim C6 (confirmed): an unknown method selector makes the threshold
calculator return an empty threshold map, for every table, without
raising (the `if/elif` chain at lines 185-210 has no `else`). -/
theorem claim_C6_unknown_method_no_thresholds (rsqrt : ℚ → ℚ) (df : Table)
    (method : String) (h1 : method ≠ "percentile") (h2 : method ≠ "std")
    (h3 : method ≠ "iqr") :
    calculate_alertness_thresholds rsqrt df method = [] := by
  unfold calculate_alertness_thresholds tagged
  rw [List.filterMap_eq_nil_iff]
  intro m hm
  by_cases hc : df.hasCol m <;> simp [hc, h1, h2, h3]

/-- A populated table for the C6 witness. -/
def tblC6 : Table := ⟨2, none, none, [("CPU_Usage", [some 1, some 2])]⟩

theorem claim_C6_witness :
    calculate_alertness_thresholds (fun x => x) tblC6 "zscore" = [] :=
  claim_C6_unknown_method_no_thresholds (fun x => x) tblC6 "zscore"
    (by decide) (by decide) (by decide)

/-! ## Claim C9 -/

/-- Claim C9 (confirmed): in the state-passing model of the Python code,
none of the five analysis components changes the caller-visible source
table; in particular the time-pattern aggregator adds its derived columns
only to the `df.copy()` made at line 147, and its result agrees with the
pure function of the original table. -/
theorem claim_C9_no_table_mutation (rsqrt : ℚ → ℚ)
    (shapiroT ksT : List ℚ → ℚ × ℚ) (skewT kurtT : List ℚ → ℚ)
    (df : Table) (thr : List (String × Thresh)) (method : String) :
    (calculate_descriptive_statistics_st rsqrt df).2 = df ∧
    (analyze_data_distribution_st shapiroT ksT skewT kurtT df).2 = df ∧
    (analyze_time_patterns_st rsqrt df).2 = df ∧
    (calculate_alertness_thresholds_st rsqrt df method).2 = df ∧
    (detect_anomalies_st df thr).2 = df ∧
    (analyze_time_patterns_st rsqrt df).1 = analyze_time_patterns rsqrt df := by
  refine ⟨rfl, rfl, ?_, rfl, rfl, ?_⟩
  · unfold analyze_time_patterns_st
    cases htime : df.time
    · rfl
    · simp only
      split <;> rfl
  · unfold analyze_time_patterns_st analyze_time_patterns Table.copy
    cases htime : df.time
    · rfl
    · simp only
      split <;> rfl

/-! ## Claim C10 -/

/-- Claim C10 (confirmed): when the anomaly detector returns, its output
has an entry for a metric exactly when the threshold map has an entry for
it and the metric is a column of the table; and if every threshold metric
is absent from the table, the detector silently returns an empty result
(no entry, no error) even on a zero-row table. -/
theorem claim_C10_detector_domain (df : Table) (thr : List (String × Thresh)) :
    (∀ res, detect_anomalies df thr = .ok res →
      ∀ m, ((res.lookup m).isSome = ((thr.lookup m).isSome && df.hasCol m))) ∧
    ((∀ p ∈ thr, df.hasCol p.1 = false) → detect_anomalies df thr = .ok []) := by
  constructor
  · intro res hres m
    exact detectGo_lookup_isSome hres m
  · intro habs
    exact detectGo_all_absent habs

/-- A zero-row table without a `Temperature` column, and a threshold map
mentioning only `Temperature`, for the C10 witness. -/
def tblC10 : Table := ⟨0, none, none, [("CPU_Usage", [])]⟩

def thrC10 : List (String × Thresh) :=
  [("Temperature", ⟨some 1, some 2, "percentile"⟩)]

theorem claim_C10_witness : detect_anomalies tblC10 thrC10 = .ok [] :=
  (claim_C10_detector_domain tblC10 thrC10).2 (by decide)

/-! ## Claim C2 -/

/-- A table that has a `Time` column and a `CPU_Usage` column but none of
the other three metric columns. -/
def tblC2 : Table := ⟨1, some [⟨0, 0⟩], none, [("CPU_Usage", [some 1])]⟩

/-- Claim C2 counterexample: the claim states that every downstream stage
silently skips absent metric columns without raising.  The time-pattern
aggregator does not: line 156 selects all four metric columns
unconditionally in the groupby, and pandas raises a `KeyError` when any is
absent, as on `tblC2` (which lacks `Memory_Usage`, `Network_Usage` and
`Temperature`). -/
theorem claim_C2_counterexample :
    analyze_time_patterns (fun x => x) tblC2 = .error .keyError := rfl

/-- Claim C2 as amended: descriptive statistics, the distribution analyzer
and the threshold calculator (under its three recognized methods) each
produce an entry exactly for the present metrics and silently skip absent
ones; the time-pattern aggregator instead raises a column-lookup error
exactly when one of the four metric columns is absent. -/
theorem claim_C2_amended_absent_metric_handling (rsqrt : ℚ → ℚ)
    (shapiroT ksT : List ℚ → ℚ × ℚ) (skewT kurtT : List ℚ → ℚ)
    (df : Table) (m : String) (hm : m ∈ metricNames) :
    ((calculate_descriptive_statistics rsqrt df).lookup m).isSome =
        df.hasCol m ∧
    ((analyze_data_distribution shapiroT ksT skewT kurtT df).lookup m).isSome =
        df.hasCol m ∧
    (∀ method, method = "percentile" ∨ method = "std" ∨ method = "iqr" →
      ((calculate_alertness_thresholds rsqrt df method).lookup m).isSome =
        df.hasCol m) ∧
    (∀ ts, df.time = some ts →
      (analyze_time_patterns rsqrt df = .error .keyError ↔
        ∃ x ∈ metricNames, df.hasCol x = false)) := by
  refine ⟨?_, ?_, ?_, ?_⟩
  · unfold calculate_descriptive_statistics
    rw [lookup_tagged _ hm]
    by_cases hc : df.hasCol m <;> simp [hc]
  · unfold analyze_data_distribution
    rw [lookup_tagged _ hm]
    by_cases hc : df.hasCol m <;> simp [hc]
  · intro method hmeth
    unfold calculate_alertness_thresholds
    rw [lookup_tagged _ hm]
    rcases hmeth with rfl | rfl | rfl <;>
      by_cases hc : df.hasCol m <;> simp [hc]
  · intro ts hts
    rw [analyze_time_patterns_eq_some rsqrt hts]
    have hcols : (metricNames.all fun x => (addDerivedCols df ts).hasCol x) =
        (metricNames.all fun x => df.hasCol x) := by
      rcases hall : metricNames.all fun x => df.hasCol x
      · rw [List.all_eq_false] at hall ⊢
        rcases hall with ⟨x, hxm, hxf⟩
        refine ⟨x, hxm, ?_⟩
        rw [addDerivedCols_hasCol df ts hxm]
        exact hxf
      · rw [List.all_eq_true] at hall ⊢
        intro x hxm
        rw [addDerivedCols_hasCol df ts hxm]
        exact hall x hxm
    rw [hcols]
    rcases hall : metricNames.all fun x => df.hasCol x
    · simp only [Bool.false_eq_true, if_false]
      rw [List.all_eq_false] at hall
      constructor
      · intro _
        rcases hall with ⟨x, hxm, hxf⟩
        exact ⟨x, hxm, by simpa using hxf⟩
      · intro _
        trivial
    · simp only [if_true]
      rw [List.all_eq_true] at hall
      constructor
      · intro h
        cases h
      · rintro ⟨x, hxm, hxf⟩
        exact absurd (hall x hxm) (by simp [hxf])

theorem claim_C2_witness :
    ((calculate_descriptive_statistics (fun x => x) tblC2).lookup
      "Memory_Usage").isSome = tblC2.hasCol "Memory_Usage" :=
  (claim_C2_amended_absent_metric_handling (fun x => x) (fun _ => (1, 1))
    (fun _ => (1, 1)) (fun _ => 0) (fun _ => 0) tblC2 "Memory_Usage"
    (by decide)).1

/-! ## Claim C3 -/

/-- A one-row table: its single `CPU_Usage` value is non-empty and
non-null, yet the `ddof = 1` sample standard deviation of one value is
NaN. -/
def tblC3 : Table := ⟨1, none, none, [("CPU_Usage", [some 50])]⟩

/-- `critical >= warning` exactly as Python would evaluate it on the stored
float cutoffs: false when either cutoff is NaN, since every IEEE comparison
involving NaN is false. -/
def threshOrdOk (t : Thresh) : Bool :=
  match t.critical, t.warning with
  | some c, some w => decide (w ≤ c)
  | _, _ => false

/-- Claim C3 counterexample: for the valid (non-empty, non-null) one-value
sample of `tblC3` under the `std` method, both cutoffs are
`mean ± k·NaN = NaN`, and `critical >= warning` is false on NaN, so the
claimed inequality fails as stated. -/
theorem claim_C3_counterexample :
    ((calculate_alertness_thresholds (fun x => x) tblC3 "std").lookup
      "CPU_Usage").map threshOrdOk = some false := rfl

/-- Claim C3 as amended: for every present metric with non-empty non-null
data, the computed cutoffs are actual numbers with warning ≤ critical for
the `percentile` and `iqr` methods always, and for the `std` method
whenever the sample has at least two values (with a single value the
sample standard deviation, hence both cutoffs, is NaN and the comparison is
vacuously false).  The library square root is only assumed nonnegative on
nonnegative inputs. -/
theorem claim_C3_amended_critical_ge_warning {rsqrt : ℚ → ℚ}
    (hr : ∀ x, 0 ≤ x → 0 ≤ rsqrt x) (df : Table) (m method : String)
    (hm : m ∈ metricNames) (hc : df.hasCol m = true)
    (hne : (dropna (df.numCol m)).length ≠ 0)
    (hmeth : method = "percentile" ∨ method = "iqr" ∨
      (method = "std" ∧ 2 ≤ (dropna (df.numCol m)).length)) :
    ∃ t w c,
      (calculate_alertness_thresholds rsqrt df method).lookup m = some t ∧
      t.warning = some w ∧ t.critical = some c ∧ w ≤ c := by
  unfold calculate_alertness_thresholds
  rw [lookup_tagged _ hm, hc]
  simp only [if_true]
  rcases hmeth with rfl | rfl | ⟨rfl, hlen2⟩
  · simp only [reduceIte]
    obtain ⟨x, y, hx, hy, hxy⟩ :=
      pquantile_pair_mono hne (by norm_num : (0:ℚ) ≤ 0.90)
        (by norm_num : (0.90:ℚ) ≤ 0.95) (by norm_num : (0.95:ℚ) ≤ 1)
    exact ⟨_, x, y, rfl, hx, hy, hxy⟩
  · simp only [reduceIte]
    obtain ⟨x, y, hx, hy, hxy⟩ :=
      pquantile_pair_mono hne (by norm_num : (0:ℚ) ≤ 0.25)
        (by norm_num : (0.25:ℚ) ≤ 0.75) (by norm_num : (0.75:ℚ) ≤ 1)
    refine ⟨_, y + 1.5 * (y - x), y + 3 * (y - x), rfl, ?_, ?_, by nlinarith⟩
    · rw [hx, hy]
      rfl
    · rw [hx, hy]
      rfl
  · simp only [reduceIte]
    have hmv : pmean (dropna (df.numCol m)) =
        some ((dropna (df.numCol m)).sum / ((dropna (df.numCol m)).length : ℚ)) := by
      rw [pmean, if_neg hne]
    cases hv : psampleVar (dropna (df.numCol m)) with
    | none =>
        unfold psampleVar at hv
        rw [if_neg (by omega : ¬(dropna (df.numCol m)).length ≤ 1)] at hv
        cases hv
    | some v =>
        have hsv : pstd rsqrt (dropna (df.numCol m)) = some (rsqrt v) := by
          rw [pstd, hv]
          rfl
        have hsv0 : 0 ≤ rsqrt v := hr v (psampleVar_nonneg hv)
        refine ⟨_, (dropna (df.numCol m)).sum / ((dropna (df.numCol m)).length : ℚ) +
            2 * rsqrt v,
          (dropna (df.numCol m)).sum / ((dropna (df.numCol m)).length : ℚ) +
            3 * rsqrt v, rfl, ?_, ?_, ?_⟩
        · rw [hmv, hsv]
          rfl
        · rw [hmv, hsv]
          rfl
        · linarith

/-- A two-row table for the C3 witness. -/
def tblC3W : Table := ⟨2, none, none, [("CPU_Usage", [some 1, some 3])]⟩

theorem claim_C3_witness :
    ∃ t w c,
      (calculate_alertness_thresholds (fun x => x) tblC3W "percentile").lookup
        "CPU_Usage" = some t ∧
      t.warning = some w ∧ t.critical = some c ∧ w ≤ c :=
  claim_C3_amended_critical_ge_warning (fun x hx => hx) tblC3W "CPU_Usage"
    "percentile" (by decide) (by decide) (by decide) (Or.inl rfl)

/-! ## Claim C4 -/

/-- Claim C4 (confirmed): for any table and any threshold map produced by
the threshold calculator (from any table and any method selector), every
row selected into a metric's critical-anomaly set is also in its
warning-anomaly set.  NaN cutoffs select nothing, and whenever the critical
cutoff is numeric the calculator also produced a numeric warning cutoff not
exceeding it. -/
theorem claim_C4_critical_subset_warning {rsqrt : ℚ → ℚ}
    (hr : ∀ x, 0 ≤ x → 0 ≤ rsqrt x) (df df2 : Table) (method : String)
    {res : List (String × Anomaly)}
    (hdet : detect_anomalies df
      (calculate_alertness_thresholds rsqrt df2 method) = .ok res)
    {m : String} {a : Anomaly} (hmem : (m, a) ∈ res) :
    a.critical_data ⊆ a.warning_data := by
  unfold detect_anomalies at hdet
  obtain ⟨t, htm, rfl⟩ := detectGo_ok_mem hdet hmem
  cases hcrit : t.critical with
  | none =>
      show exceedIdx (df.numCol m) t.critical ⊆
        exceedIdx (df.numCol m) t.warning
      rw [hcrit]
      intro i hi
      exact absurd hi (by simp [exceedIdx])
  | some c =>
      obtain ⟨w, hw, hwc⟩ := thresh_warning_le_critical hr htm hcrit
      show exceedIdx (df.numCol m) t.critical ⊆
        exceedIdx (df.numCol m) t.warning
      rw [hcrit, hw]
      exact exceedIdx_subset hwc

/-- A two-row table for the C4 witness. -/
def tblC4 : Table := ⟨2, none, none, [("CPU_Usage", [some 1, some 3])]⟩

/-- The anomaly record the detector computes on `tblC4` under `percentile`
thresholds (warning 2.8, critical 2.9): only row 1 (value 3) exceeds
either cutoff. -/
def anomC4 : Anomaly :=
  { warning_count := 1, critical_count := 1, warning_data := [1],
    critical_data := [1], warning_percentage := 50,
    critical_percentage := 50 }

theorem detC4_eval :
    detect_anomalies tblC4
      (calculate_alertness_thresholds (fun x => x) tblC4 "percentile") =
      .ok [("CPU_Usage", anomC4)] := by
  norm_num [detect_anomalies, detectGo, mkAnomaly, exceedIdx,
    calculate_alertness_thresholds, tagged, pquantile, interpAt, sortAsc,
    dropna, Table.hasCol, Table.numCol, metricNames, List.filterMap,
    List.lookup, List.enum, List.insertionSort, List.orderedInsert, tblC4,
    anomC4]
  decide

theorem claim_C4_witness : anomC4.critical_data ⊆ anomC4.warning_data :=
  claim_C4_critical_subset_warning (fun _ hx => hx) tblC4 tblC4 "percentile"
    detC4_eval (List.mem_cons_self _ _)

/-! ## Claim C7 -/

/-- A table with a `Time` column spanning two dates but only one of the
four metric columns. -/
def tblC7 : Table := ⟨2, some [⟨0, 1⟩, ⟨1, 2⟩], none,
  [("Memory_Usage", [some 1, some 2])]⟩

/-- Claim C7 counterexample: the claim states that for every table with a
timestamp column the aggregator always produces the hourly grouping.  On
`tblC7` (which has `Time` but lacks three metric columns) the groupby
column selection at line 156 raises a `KeyError` instead, so no hourly
grouping is produced. -/
theorem claim_C7_counterexample :
    analyze_time_patterns (fun x => x) tblC7 = .error .keyError := rfl

/-- Claim C7 as amended: for every table with a `Time` column and all four
metric columns, the aggregator succeeds, always produces the hourly
grouping, and produces the calendar-date grouping exactly when the
timestamps span more than one distinct date. -/
theorem claim_C7_amended_daily_iff_multiday (rsqrt : ℚ → ℚ) (df : Table)
    (ts : List Timestamp) (ht : df.time = some ts)
    (hall : ∀ x ∈ metricNames, df.hasCol x = true) :
    ∃ r, analyze_time_patterns rsqrt df = .ok r ∧
      r.hourly = groupAgg rsqrt (ts.map Timestamp.hour) (addDerivedCols df ts) ∧
      (r.daily.isSome ↔ 1 < (ts.map Timestamp.date).dedup.length) := by
  rw [analyze_time_patterns_eq_some rsqrt ht]
  have hcond : (metricNames.all fun m => (addDerivedCols df ts).hasCol m) = true := by
    rw [List.all_eq_true]
    intro x hx
    rw [addDerivedCols_hasCol df ts hx]
    exact hall x hx
  rw [hcond]
  simp only [if_true]
  refine ⟨_, rfl, rfl, ?_⟩
  by_cases hgt : 1 < (ts.map Timestamp.date).dedup.length <;> simp [hgt]

/-- A table with all four metric columns and two distinct dates, for the C7
witness. -/
def tblC7W : Table := ⟨2, some [⟨0, 1⟩, ⟨1, 2⟩], none,
  [("CPU_Usage", [some 1, some 2]), ("Memory_Usage", [some 1, some 2]),
   ("Network_Usage", [some 1, some 2]), ("Temperature", [some 1, some 2])]⟩

theorem claim_C7_witness :
    ∃ r, analyze_time_patterns (fun x => x) tblC7W = .ok r ∧
      r.hourly = groupAgg (fun x => x)
        (([⟨0, 1⟩, ⟨1, 2⟩] : List Timestamp).map Timestamp.hour)
        (addDerivedCols tblC7W [⟨0, 1⟩, ⟨1, 2⟩]) ∧
      (r.daily.isSome ↔
        1 < (([⟨0, 1⟩, ⟨1, 2⟩] : List Timestamp).map Timestamp.date).dedup.length) :=
  claim_C7_amended_daily_iff_multiday (fun x => x) tblC7W [⟨0, 1⟩, ⟨1, 2⟩] rfl
    (by decide)

/-! ## Claim C8 -/

/-- A table with a parsed `dteday` timestamp column, all four metric
columns, and no `Time` column. -/
def tblC8 : Table := ⟨1, none, some [⟨0, 0⟩],
  [("CPU_Usage", [some 1]), ("Memory_Usage", [some 1]),
   ("Network_Usage", [some 1]), ("Temperature", [some 1])]⟩

/-- Claim C8 counterexample: the claim states the aggregator proceeds
without error whenever one of the two recognized timestamp columns (`Time`
or `dteday`) is present.  Line 143 checks only for `Time`, so on `tblC8`
(which has `dteday` but no `Time`) the aggregator raises the validation
error anyway. -/
theorem claim_C8_counterexample :
    analyze_time_patterns (fun x => x) tblC8 = .error .valueError := rfl

/-- Claim C8 as amended: the aggregator fails with the validation error
exactly when the `Time` column is absent — the `dteday` column is
recognized only by the loader, not by this check — and with `Time` present
(and all four metric columns present) it proceeds without error. -/
theorem claim_C8_amended_validation_iff_no_time (rsqrt : ℚ → ℚ) (df : Table) :
    (analyze_time_patterns rsqrt df = .error .valueError ↔ df.time = none) ∧
    (∀ ts, df.time = some ts → (∀ x ∈ metricNames, df.hasCol x = true) →
      ∃ r, analyze_time_patterns rsqrt df = .ok r) := by
  constructor
  · cases htime : df.time with
    | none =>
        rw [analyze_time_patterns_eq_none rsqrt htime]
        exact ⟨fun _ => rfl, fun _ => rfl⟩
    | some ts =>
        rw [analyze_time_patterns_eq_some rsqrt htime]
        split <;> simp
  · intro ts ht hall
    rw [analyze_time_patterns_eq_some rsqrt ht]
    have hcond : (metricNames.all fun m => (addDerivedCols df ts).hasCol m) = true := by
      rw [List.all_eq_true]
      intro x hx
      rw [addDerivedCols_hasCol df ts hx]
      exact hall x hx
    rw [hcond]
    simp only [if_true]
    exact ⟨_, rfl⟩

/-- A table with `Time` and all four metric columns, for the C8 witness. -/
def tblC8W : Table := ⟨1, some [⟨0, 3⟩], none,
  [("CPU_Usage", [some 2]), ("Memory_Usage", [some 2]),
   ("Network_Usage", [some 2]), ("Temperature", [some 2])]⟩

theorem claim_C8_witness :
    ∃ r, analyze_time_patterns (fun x => x) tblC8W = .ok r :=
  (claim_C8_amended_validation_iff_no_time (fun x => x) tblC8W).2 [⟨0, 3⟩] rfl
    (by decide)

end CPUAnalysis
